import Mathlib

/-!
Shallow embedding of the SQLite-Playground repository (a React UI over the
sql.js in-browser SQLite engine).  The definitions below are translated from
`src/App.tsx`, `src/components/Navbar.tsx` and the display components.  The
embedded engine itself is external to the repository; it appears here as an
oracle (`Engine`) recording the responses the engine gives to the calls the
application makes during one `executeQuery` episode.
-/

deriving instance DecidableEq for Except

namespace Playground

/-- Values handed back by the embedded engine (sql.js `SqlValue`): text,
numbers, NULL, or binary blobs (`Uint8Array`, modelled as a byte list).
Numeric values are modelled as integers; no claim depends on the numeric
representation. -/
inductive SqlValue where
  | str (s : String)
  | num (n : Int)
  | null
  | blob (bytes : List Nat)
deriving DecidableEq

/-- JavaScript string conversion of an engine value, used when a value flows
into a template literal or is used where TypeScript casts it to `string`
(`row[0] as string` is a compile-time cast, so the runtime behaviour is the
value's string rendering at its use sites). -/
def SqlValue.jsToString : SqlValue → String
  | .str s => s
  | .num n => toString n
  | .null => "null"
  | .blob bs => String.intercalate "," (bs.map toString)

/-- Models the external `new TextDecoder().decode(value)` call on a byte
array; the decoder is a browser builtin, modelled as mapping each byte to the
corresponding character. -/
def decodeBytes (bs : List Nat) : String :=
  String.mk (bs.map (fun b => Char.ofNat b))

/-- `convertSqlValue` from `App.tsx`: binary data is decoded to a string, all
other values pass through unchanged. -/
def convertSqlValue : SqlValue → SqlValue
  | .blob bs => .str (decodeBytes bs)
  | v => v

/-- A value is primitive when it is text, a number, or NULL (the row type
`TableRow` in the source is `string | number | null`). -/
def SqlValue.isPrimitive : SqlValue → Bool
  | .blob _ => false
  | _ => true

/-- JavaScript truthiness of an engine value, as used by `Boolean(col[3])`
and `Boolean(col[5])` in `fetchTableSchemas`. -/
def SqlValue.jsTruthy : SqlValue → Bool
  | .null => false
  | .num n => decide (n ≠ 0)
  | .str s => decide (s ≠ "")
  | .blob _ => true

/-- The TypeScript cast `col[4] as string | null` applied to the engine's
default-value column: NULL stays null, any other value is used as text. -/
def castStringOrNull : SqlValue → Option String
  | .null => none
  | v => some v.jsToString

/-- Property assignment `obj[k] = v` on a JavaScript object: an existing key
keeps its position and gets the new value, a new key is appended. -/
def recordSet {α : Type} : List (String × α) → String → α → List (String × α)
  | [], k, v => [(k, v)]
  | (k', v') :: rest, k, v =>
    if k' = k then (k, v) :: rest else (k', v') :: recordSet rest k v

/-- `Object.fromEntries`: later entries for the same key overwrite earlier
ones, keeping the first position. -/
def recordOfEntries {α : Type} (entries : List (String × α)) : List (String × α) :=
  entries.foldl (fun acc kv => recordSet acc kv.1 kv.2) []

/-- A row as stored in React state: a JavaScript object mapping column names
to values (`TableRow` in the source). -/
abbrev TableRow := List (String × SqlValue)

/-- One result set of `db.exec` (sql.js `QueryExecResult`). -/
structure ExecResult where
  columns : List String
  values : List (List SqlValue)
deriving DecidableEq

/-- Column descriptor of `TableSchema` in `App.tsx`. -/
structure ColumnInfo where
  name : String
  type : String
  notNull : Bool
  defaultValue : Option String
  primaryKey : Bool
deriving DecidableEq

/-- Foreign-key descriptor of `TableSchema` in `App.tsx`; note the synthetic
`id` field in addition to the three catalog-derived fields. -/
structure ForeignKeyInfo where
  id : String
  columnName : String
  referencedTable : String
  referencedColumn : String
deriving DecidableEq

/-- `TableSchema` from `App.tsx`. -/
structure TableSchema where
  name : String
  columns : List ColumnInfo
  foreignKeys : List ForeignKeyInfo
deriving DecidableEq

/-- The observable behaviour of the embedded engine during one episode:
the outcome of running the statement through `db.run` (together with the
following `db.getRowsModified` count) or through `db.exec`, the responses to
the introspection `db.exec` calls issued afterwards, and the bytes `db.export`
would produce.  An exception thrown by the engine is an `Except.error`
carrying the exception's message. -/
structure Engine where
  stmtRun : String → Except String Nat
  stmtExec : String → Except String (List ExecResult)
  introspect : String → Except String (List ExecResult)
  exportBytes : List Nat

/-- The React state of the root `App` component that the claims are about. -/
structure AppState where
  editorContent : String
  tables : List (String × List TableRow)
  tableSchemas : List TableSchema
  queryResults : Option (List (String × List TableRow))
  queryError : Option String
  queryMessage : Option String
  leftWidth : ℚ
  file : Option String
deriving DecidableEq

/-- The catalog query issued by `fetchTables` and `fetchTableSchemas`. -/
def catalogQuery : String := "SELECT name FROM sqlite_master WHERE type='table';"

/-- `tableQuery[0]?.values.map((row) => row[0] as string) || []`. -/
def tableNamesOf (tq : List ExecResult) : List String :=
  match tq with
  | [] => []
  | r :: _ => r.values.map (fun row => (row.headD SqlValue.null).jsToString)

/-- The per-table query issued by `fetchTables`. -/
def selectAllQuery (table : String) : String :=
  "SELECT * FROM \"" ++ table ++ "\";"

/-- `Object.fromEntries(columns.map((col, i) => [col, convertSqlValue(row[i])]))`. -/
def rowRecord (cols : List String) (row : List SqlValue) : TableRow :=
  recordOfEntries (cols.enum.map (fun ic => (ic.2, convertSqlValue (row.getD ic.1 SqlValue.null))))

/-- The `tableNames.forEach` loop of `fetchTables`, with the mutated
`tableData` object as accumulator.  A thrown engine call aborts the whole
`try` block. -/
def fetchTablesLoop (introspect : String → Except String (List ExecResult)) :
    List String → List (String × List TableRow) →
    Except String (List (String × List TableRow))
  | [], acc => .ok acc
  | t :: ts, acc =>
    match introspect (selectAllQuery t) with
    | .error e => .error e
    | .ok result =>
      match result with
      | r :: _ => fetchTablesLoop introspect ts
          (recordSet acc t (r.values.map (rowRecord r.columns)))
      | [] => fetchTablesLoop introspect ts (recordSet acc t [])

/-- The data `fetchTables` computes inside its `try` block; `.error` means
the block threw and `setTables` was never reached. -/
def fetchTablesData (introspect : String → Except String (List ExecResult)) :
    Except String (List (String × List TableRow)) :=
  match introspect catalogQuery with
  | .error e => .error e
  | .ok tq => fetchTablesLoop introspect (tableNamesOf tq) []

/-- `fetchTables` from `App.tsx`: on success the `tables` state is replaced
wholesale; a caught exception leaves the state untouched. -/
def fetchTables (introspect : String → Except String (List ExecResult))
    (s : AppState) : AppState :=
  match fetchTablesData introspect with
  | .ok d => { s with tables := d }
  | .error _ => s

/-- The per-table column query of `fetchTableSchemas`. -/
def tableInfoQuery (t : String) : String := "PRAGMA table_info(\"" ++ t ++ "\");"

/-- The per-table foreign-key query of `fetchTableSchemas`. -/
def foreignKeyListQuery (t : String) : String := "PRAGMA foreign_key_list(\"" ++ t ++ "\");"

/-- The values of the first result set, or `[]` when there is none (the
`foreignKeyInfo.length > 0` check). -/
def fkValuesOf (fkr : List ExecResult) : List (List SqlValue) :=
  match fkr with
  | [] => []
  | f :: _ => f.values

/-- The body of the per-table `try` block of `fetchTableSchemas`: `none`
when the table contributes no schema record (a thrown pragma call, or an
empty `table_info` result). -/
def schemaFor (introspect : String → Except String (List ExecResult))
    (tableName : String) : Option TableSchema :=
  match introspect (tableInfoQuery tableName) with
  | .error _ => none
  | .ok columnInfo =>
    match columnInfo with
    | [] => none
    | ci :: _ =>
      let columns := ci.values.map (fun col =>
        { name := (col.getD 1 SqlValue.null).jsToString
          type := (col.getD 2 SqlValue.null).jsToString
          notNull := (col.getD 3 SqlValue.null).jsTruthy
          defaultValue := castStringOrNull (col.getD 4 SqlValue.null)
          primaryKey := (col.getD 5 SqlValue.null).jsTruthy : ColumnInfo })
      match introspect (foreignKeyListQuery tableName) with
      | .error _ => none
      | .ok fkInfo =>
        let foreignKeys := (fkValuesOf fkInfo).enum.map (fun ifk =>
          { id := tableName ++ "_fk_" ++ toString ifk.1
            columnName := (ifk.2.getD 3 SqlValue.null).jsToString
            referencedTable := (ifk.2.getD 2 SqlValue.null).jsToString
            referencedColumn := (ifk.2.getD 4 SqlValue.null).jsToString : ForeignKeyInfo })
        some { name := tableName, columns := columns, foreignKeys := foreignKeys }

/-- The `tableNames.forEach` loop of `fetchTableSchemas`, pushing one record
per table that yields one. -/
def fetchSchemasLoop (introspect : String → Except String (List ExecResult)) :
    List String → List TableSchema
  | [] => []
  | t :: ts =>
    match schemaFor introspect t with
    | some sch => sch :: fetchSchemasLoop introspect ts
    | none => fetchSchemasLoop introspect ts

/-- The data `fetchTableSchemas` computes inside its outer `try` block;
`.error` means the catalog query threw and `setTableSchemas` was never
reached. -/
def fetchSchemasData (introspect : String → Except String (List ExecResult)) :
    Except String (List TableSchema) :=
  match introspect catalogQuery with
  | .error e => .error e
  | .ok tq => .ok (fetchSchemasLoop introspect (tableNamesOf tq))

/-- `fetchTableSchemas` from `App.tsx`. -/
def fetchTableSchemas (introspect : String → Except String (List ExecResult))
    (s : AppState) : AppState :=
  match fetchSchemasData introspect with
  | .ok schemas => { s with tableSchemas := schemas }
  | .error _ => s

/-- Code points matched by the JavaScript regex class `\s`. -/
def jsWhitespaceCodes : List Nat :=
  [9, 10, 11, 12, 13, 32, 160, 5760, 8192, 8193, 8194, 8195, 8196, 8197, 8198,
   8199, 8200, 8201, 8202, 8232, 8233, 8239, 8287, 12288, 65279]

/-- Whether a character is JavaScript regex whitespace (`\s`). -/
def jsWhitespace (c : Char) : Bool := jsWhitespaceCodes.contains c.toNat

/-- Case-insensitive match of an uppercase keyword at the head of the input,
returning the rest of the input on success (the keyword part of the `/i`
regexes in `isDMLQuery`). -/
def matchKeywordCI : List Char → List Char → Option (List Char)
  | rest, [] => some rest
  | [], _ :: _ => none
  | c :: cs, k :: ks => if c.toUpper = k then matchKeywordCI cs ks else none

/-- Test of a regex of the form `/^\s*K1\s+K2/i` against a query: optional
leading whitespace, the first keyword, at least one whitespace character,
then the second keyword.  (The greedy `\s+` is equivalent to consuming all
whitespace here because no keyword starts with a whitespace character.) -/
def testTwoKeyword (q : String) (k1 k2 : String) : Bool :=
  match matchKeywordCI (q.toList.dropWhile jsWhitespace) k1.toList with
  | none => false
  | some rest =>
    match rest with
    | [] => false
    | c :: cs => jsWhitespace c && (matchKeywordCI (cs.dropWhile jsWhitespace) k2.toList).isSome

/-- Test of a regex of the form `/^\s*K\s+/i` against a query: the keyword
must be followed by at least one whitespace character. -/
def testKeywordWs (q : String) (k : String) : Bool :=
  match matchKeywordCI (q.toList.dropWhile jsWhitespace) k.toList with
  | none => false
  | some rest =>
    match rest with
    | [] => false
    | c :: _ => jsWhitespace c

/-- `isDMLQuery` from `App.tsx`: the six regex tests combined with `some`. -/
def isDMLQuery (q : String) : Bool :=
  testTwoKeyword q "INSERT" "INTO" || testKeywordWs q "UPDATE" ||
  testTwoKeyword q "DELETE" "FROM" || testTwoKeyword q "CREATE" "TABLE" ||
  testTwoKeyword q "DROP" "TABLE" || testTwoKeyword q "ALTER" "TABLE"

/-- Literal prefix test on character lists (second argument is the pattern). -/
def startsWithLit : List Char → List Char → Bool
  | _, [] => true
  | [], _ :: _ => false
  | c :: cs, p :: ps => c = p && startsWithLit cs ps

/-- The DML test as the claim words it: after optional leading whitespace the
text begins, case-insensitively, with one of six literal prefixes. -/
def isDMLClaimed (q : String) : Bool :=
  let r := (q.toList.dropWhile jsWhitespace).map Char.toUpper
  ["INSERT INTO", "UPDATE", "DELETE FROM", "CREATE TABLE", "DROP TABLE",
   "ALTER TABLE"].any (fun p => startsWithLit r p.toList)

/-- Pattern matcher in which a space in the pattern stands for one-or-more
JavaScript whitespace characters and letters match case-insensitively: the
amended reading of the claimed prefixes. -/
def flexMatch : List Char → List Char → Bool
  | _, [] => true
  | cs, p :: ps =>
    if p = ' ' then
      match cs with
      | c :: rest => jsWhitespace c && flexMatch (rest.dropWhile jsWhitespace) ps
      | [] => false
    else
      match cs with
      | c :: rest => (c.toUpper = p) && flexMatch rest ps
      | [] => false

/-- The amended DML characterisation: the six prefixes with each listed
space standing for one-or-more whitespace characters, and `UPDATE` required
to be followed by whitespace. -/
def isDMLFlex (q : String) : Bool :=
  let r := q.toList.dropWhile jsWhitespace
  ["INSERT INTO", "UPDATE ", "DELETE FROM", "CREATE TABLE", "DROP TABLE",
   "ALTER TABLE"].any (fun p => flexMatch r p.toList)

/-- The `result.forEach` loop of the non-DML branch of `executeQuery`:
each result set is stored under the key `table.columns.join(", ")`. -/
def buildQueryResults (result : List ExecResult) : List (String × List TableRow) :=
  result.foldl (fun acc r =>
    recordSet acc (String.intercalate ", " r.columns)
      (r.values.map (rowRecord r.columns))) []

/-- The statement-execution part of `executeQuery` (everything before the
`fetchTables` / `fetchTableSchemas` refresh): error and message state are
reset, then the statement runs through `db.run` or `db.exec` according to
`isDMLQuery`, with thrown engine exceptions caught and turned into a
`queryError` of the form `SQL Error: <message>`. -/
def execStmtPhase (eng : Engine) (s : AppState) : AppState :=
  let s0 := { s with queryError := none, queryMessage := none }
  if isDMLQuery s.editorContent then
    match eng.stmtRun s.editorContent with
    | .ok rowsChanged =>
      { s0 with queryResults := some [],
                queryMessage := some ("Query executed successfully. Rows affected: "
                  ++ toString rowsChanged) }
    | .error m => { s0 with queryError := some ("SQL Error: " ++ m) }
  else
    match eng.stmtExec s.editorContent with
    | .ok result =>
      match result with
      | [] => { s0 with queryResults := some [],
                        queryMessage := some "Query executed successfully. No rows returned." }
      | r :: rs => { s0 with queryResults := some (buildQueryResults (r :: rs)) }
    | .error m =>
      { s0 with queryError := some ("SQL Error: " ++ m), queryResults := some [] }

/-- `executeQuery` from `App.tsx`: the statement phase, then the wholesale
`fetchTables` / `fetchTableSchemas` refresh (which runs on the error paths
as well), then `setLeftWidth(currentLeftWidth)` with the width captured at
entry. -/
def executeQuery (eng : Engine) (s : AppState) : AppState :=
  let s1 := execStmtPhase eng s
  let s2 := fetchTables eng.introspect s1
  let s3 := fetchTableSchemas eng.introspect s2
  { s3 with leftWidth := s.leftWidth }

/-- What the results pane of the root view shows: the error box, the success
message box, or the `QueryOutputTable` component with its `results` prop. -/
inductive ResultsPane where
  | errorBox (message : String)
  | messageBox (message : String)
  | resultsTable (results : Option (List (String × List TableRow)))
deriving DecidableEq

/-- The props the root view's render passes to its display components. -/
structure RenderedView where
  availableTablesProp : List (String × List TableRow)
  schemaGraphProp : List TableSchema
  resultsPane : ResultsPane
deriving DecidableEq

/-- The render of `App`: `tables` goes to `AvailableTables`, `tableSchemas`
to `SchemaViewer`, and the results pane shows the error box when
`queryError` is set, otherwise the message box when `queryMessage` is set,
otherwise `QueryOutputTable` with `queryResults`. -/
def render (s : AppState) : RenderedView :=
  { availableTablesProp := s.tables
    schemaGraphProp := s.tableSchemas
    resultsPane :=
      match s.queryError with
      | some e => .errorBox e
      | none =>
        match s.queryMessage with
        | some m => .messageBox m
        | none => .resultsTable s.queryResults }

/-- The observable outcome of `downloadDatabase`: either the no-database
alert, or a download of the given bytes under the given file name. -/
inductive DownloadOutcome where
  | alertNoDb
  | downloaded (bytes : List Nat) (fileName : String)
deriving DecidableEq

/-- The fallback file name used when no file was loaded. -/
def defaultExportName : String := "sql-playground-export.sqlite"

/-- `downloadDatabase` from `App.tsx`: with no database it alerts and does
nothing else; otherwise it downloads a blob of exactly `db.export()` named
after the loaded file or the default name.  No React state is touched on
either path. -/
def downloadDatabase (db : Option Engine) (s : AppState) :
    DownloadOutcome × AppState :=
  match db with
  | none => (.alertNoDb, s)
  | some d =>
    let fileName := match s.file with
      | some n => n
      | none => defaultExportName
    (.downloaded d.exportBytes fileName, s)

/-- The events the navigation bar can emit to the root view, one per callback
prop of `Navbar` (`onFileSelect`, `onDownloadDb`, `onClearDb`).  A selected
file is modelled by its name. -/
inductive NavEvent where
  | fileSelect (fileName : String)
  | downloadDb
  | clearDb
deriving DecidableEq

/-- The local state of the `Navbar` component. -/
structure NavbarState where
  fileName : String
deriving DecidableEq

/-- `handleFileUpload` from `Navbar.tsx`: with a non-empty file list the
first file is passed to `onFileSelect` and the label is updated; with an
empty list nothing happens. -/
def handleFileUpload (files : List String) (nav : NavbarState) :
    List NavEvent × NavbarState :=
  match files with
  | [] => ([], nav)
  | f :: _ => ([.fileSelect f], { nav with fileName := f })

/-- The download button's `onClick`, wired directly to `onDownloadDb`. -/
def handleDownloadClick (nav : NavbarState) : List NavEvent × NavbarState :=
  ([.downloadDb], nav)

/-- `handleClearDb` from `Navbar.tsx`: `onClearDb` fires only when the user
confirms; declining leaves everything unchanged. -/
def handleClearDb (confirmed : Bool) (nav : NavbarState) :
    List NavEvent × NavbarState :=
  if confirmed then ([.clearDb], { nav with fileName := "New Database" })
  else ([], nav)

/-- `minFraction` from `App.tsx`. -/
def minFraction : ℚ := 0.2

/-- `maxFraction` from `App.tsx`. -/
def maxFraction : ℚ := 0.8

/-- The clamp applied to every resize move:
`Math.max(minFraction, Math.min(maxFraction, startFraction + delta))`. -/
def clampFraction (x : ℚ) : ℚ := max minFraction (min maxFraction x)

/-- The three layout fractions held in React state. -/
structure LayoutState where
  leftWidth : ℚ
  topHeightLeft : ℚ
  topHeightRight : ℚ
deriving DecidableEq

/-- The initial layout state (`useState(0.3)`, `useState(0.5)`, `useState(0.5)`). -/
def initialLayout : LayoutState :=
  { leftWidth := 0.3, topHeightLeft := 0.5, topHeightRight := 0.5 }

/-- The fraction values set by the successive mouse-move events of one drag:
each move clamps `startFraction + delta` where `startFraction` is the value
captured at mouse-down. -/
def dragValues (start : ℚ) (deltas : List ℚ) : List ℚ :=
  deltas.map (fun d => clampFraction (start + d))

/-- The events that write a layout fraction: a horizontal drag (the deltas of
its mouse moves), a vertical drag on either side, or the
`setLeftWidth(currentLeftWidth)` performed at the end of `executeQuery`. -/
inductive ResizeEvent where
  | horizontalDrag (deltas : List ℚ)
  | verticalDragLeft (deltas : List ℚ)
  | verticalDragRight (deltas : List ℚ)
  | runQueryRelayout
deriving DecidableEq

/-- One event's effect on the layout state: the fraction written by the last
move of the drag wins (a drag with no moves leaves the value alone). -/
def applyEvent (st : LayoutState) : ResizeEvent → LayoutState
  | .horizontalDrag ds =>
    { st with leftWidth := (dragValues st.leftWidth ds).getLastD st.leftWidth }
  | .verticalDragLeft ds =>
    { st with topHeightLeft := (dragValues st.topHeightLeft ds).getLastD st.topHeightLeft }
  | .verticalDragRight ds =>
    { st with topHeightRight := (dragValues st.topHeightRight ds).getLastD st.topHeightRight }
  | .runQueryRelayout => { st with leftWidth := st.leftWidth }

/-- All layout states visited while processing a list of events. -/
def layoutTrace (st : LayoutState) : List ResizeEvent → List LayoutState
  | [] => [st]
  | e :: es => st :: layoutTrace (applyEvent st e) es

/-- A fraction lies in the clamp interval. -/
def fractionInRange (x : ℚ) : Prop := minFraction ≤ x ∧ x ≤ maxFraction

/-- All three layout fractions lie in the clamp interval. -/
def layoutInRange (st : LayoutState) : Prop :=
  fractionInRange st.leftWidth ∧ fractionInRange st.topHeightLeft ∧
  fractionInRange st.topHeightRight

/-! Concrete engines and states used by witnesses and counterexamples. -/

/-- An engine whose statement calls throw. -/
def errEngine : Engine :=
  { stmtRun := fun _ => .error "boom"
    stmtExec := fun _ => .error "boom"
    introspect := fun _ => .ok []
    exportBytes := [] }

/-- A base application state with a non-DML statement in the editor. -/
def baseState : AppState :=
  { editorContent := "SELECT * FROM t"
    tables := []
    tableSchemas := []
    queryResults := none
    queryError := none
    queryMessage := none
    leftWidth := 0.3
    file := none }

/-- A concrete introspection oracle: one table `t` with an integer primary
key column and one binary cell. -/
def catIntro : String → Except String (List ExecResult) := fun q =>
  if q = catalogQuery then .ok [⟨["name"], [[.str "t"]]⟩]
  else if q = selectAllQuery "t" then
    .ok [⟨["x"], [[.num 7], [.blob [104, 105]]]⟩]
  else if q = tableInfoQuery "t" then
    .ok [⟨["cid", "name", "type", "notnull", "dflt_value", "pk"],
         [[.num 0, .str "x", .str "INTEGER", .num 0, .null, .num 1]]⟩]
  else if q = foreignKeyListQuery "t" then .ok []
  else .error "no such table"

/-- A concrete engine built around `catIntro`. -/
def catEngine : Engine :=
  { stmtRun := fun _ => .ok 1
    stmtExec := fun _ => .ok []
    introspect := catIntro
    exportBytes := [] }

/-- Every row a record holds only rows of `rowRecord` shape, hence only
primitive cells. -/
def rowsPrimitive (kv : String × List TableRow) : Prop :=
  ∀ row ∈ kv.2, ∀ cell ∈ row, cell.2.isPrimitive = true

/-- A catalog oracle describing two tables `a` and `b` with identical column
and foreign-key rows. -/
def twinTablesIntro : String → Except String (List ExecResult) := fun q =>
  if q = catalogQuery then .ok [⟨["name"], [[.str "a"], [.str "b"]]⟩]
  else if q = tableInfoQuery "a" || q = tableInfoQuery "b" then
    .ok [⟨["cid", "name", "type", "notnull", "dflt_value", "pk"],
         [[.num 0, .str "c", .str "INTEGER", .num 0, .null, .num 0]]⟩]
  else if q = foreignKeyListQuery "a" || q = foreignKeyListQuery "b" then
    .ok [⟨["id", "seq", "table", "from", "to", "on_update", "on_delete", "match"],
         [[.num 0, .num 0, .str "u", .str "c", .str "d",
           .str "NO ACTION", .str "NO ACTION", .str "NONE"]]⟩]
  else .error "no such table"

/-- An engine whose `db.run` reports three modified rows. -/
def dmlEngine : Engine :=
  { stmtRun := fun _ => .ok 3
    stmtExec := fun _ => .ok []
    introspect := fun _ => .ok []
    exportBytes := [] }

/-- A state whose editor holds a DML statement. -/
def dmlState : AppState :=
  { baseState with editorContent := "UPDATE t SET x = 1" }

/-- A state with a loaded file name. -/
def fileState : AppState := { baseState with file := some "mydb.sqlite" }

/-- An engine with concrete export bytes. -/
def exportEngine : Engine := { catEngine with exportBytes := [1, 2, 3] }

/-- The two result sets returned by the engine for the multi-statement
input: identical column name lists. -/
def twinResultSets : List ExecResult :=
  [⟨["a"], [[.num 1]]⟩, ⟨["a"], [[.num 2]]⟩]

/-- An engine returning the two identically-keyed result sets. -/
def multiEngine : Engine :=
  { stmtRun := fun _ => .ok 0
    stmtExec := fun _ => .ok [⟨["a"], [[.num 1]]⟩]
    introspect := fun _ => .ok []
    exportBytes := [] }

/-- An engine returning the two identically-keyed result sets. -/
def twinResultEngine : Engine :=
  { multiEngine with stmtExec := fun _ => .ok twinResultSets }

/-- A state executing a two-statement query with identical column lists. -/
def twinResultState : AppState :=
  { baseState with editorContent := "SELECT 1 AS a; SELECT 2 AS a;" }

/-! Helper lemmas. -/

theorem fetchTables_preserves (i : String → Except String (List ExecResult))
    (s : AppState) :
    (fetchTables i s).queryError = s.queryError ∧
    (fetchTables i s).queryMessage = s.queryMessage ∧
    (fetchTables i s).queryResults = s.queryResults ∧
    (fetchTables i s).tableSchemas = s.tableSchemas := by
  cases h : fetchTablesData i <;> simp [fetchTables, h]

theorem fetchTableSchemas_preserves (i : String → Except String (List ExecResult))
    (s : AppState) :
    (fetchTableSchemas i s).queryError = s.queryError ∧
    (fetchTableSchemas i s).queryMessage = s.queryMessage ∧
    (fetchTableSchemas i s).queryResults = s.queryResults ∧
    (fetchTableSchemas i s).tables = s.tables := by
  cases h : fetchSchemasData i <;> simp [fetchTableSchemas, h]

theorem executeQuery_queryError (eng : Engine) (s : AppState) :
    (executeQuery eng s).queryError = (execStmtPhase eng s).queryError := by
  unfold executeQuery
  rw [(fetchTableSchemas_preserves _ _).1, (fetchTables_preserves _ _).1]

theorem executeQuery_queryMessage (eng : Engine) (s : AppState) :
    (executeQuery eng s).queryMessage = (execStmtPhase eng s).queryMessage := by
  unfold executeQuery
  rw [(fetchTableSchemas_preserves _ _).2.1, (fetchTables_preserves _ _).2.1]

theorem executeQuery_queryResults (eng : Engine) (s : AppState) :
    (executeQuery eng s).queryResults = (execStmtPhase eng s).queryResults := by
  unfold executeQuery
  rw [(fetchTableSchemas_preserves _ _).2.2.1, (fetchTables_preserves _ _).2.2.1]

/-! Claim C1. -/

/-- C1: every engine exception raised by `db.run` (DML path) or `db.exec`
(query path) inside `executeQuery` is caught — `executeQuery` is a total
function on engine outcomes — and surfaces only as the `queryError` state
`SQL Error: <message>`, which the root view renders as the error box; no
success message is produced and no other recovery action is taken. -/
theorem executeQuery_catches_engine_errors (eng : Engine) (s : AppState)
    (m : String)
    (hRun : isDMLQuery s.editorContent = true →
      eng.stmtRun s.editorContent = .error m)
    (hExec : isDMLQuery s.editorContent = false →
      eng.stmtExec s.editorContent = .error m) :
    (executeQuery eng s).queryError = some ("SQL Error: " ++ m) ∧
    (executeQuery eng s).queryMessage = none ∧
    (render (executeQuery eng s)).resultsPane =
      .errorBox ("SQL Error: " ++ m) := by
  have hphase : (execStmtPhase eng s).queryError = some ("SQL Error: " ++ m) ∧
      (execStmtPhase eng s).queryMessage = none := by
    by_cases h : isDMLQuery s.editorContent = true
    · simp [execStmtPhase, h, hRun h]
    · have h' : isDMLQuery s.editorContent = false := by
        simpa using h
      simp [execStmtPhase, h', hExec h']
  have he := (executeQuery_queryError eng s).trans hphase.1
  have hm := (executeQuery_queryMessage eng s).trans hphase.2
  exact ⟨he, hm, by simp [render, he]⟩

/-- Witness for C1 at a concrete throwing engine. -/
theorem executeQuery_catches_engine_errors_witness :
    (executeQuery errEngine baseState).queryError = some ("SQL Error: " ++ "boom") ∧
    (executeQuery errEngine baseState).queryMessage = none ∧
    (render (executeQuery errEngine baseState)).resultsPane =
      .errorBox ("SQL Error: " ++ "boom") :=
  executeQuery_catches_engine_errors errEngine baseState "boom"
    (fun _ => rfl) (fun _ => rfl)

/-! Claim C2. -/

/-- C2: whatever the statement outcome, `executeQuery` ends by rebuilding
`tables` and `tableSchemas` wholesale from the engine's catalog responses:
whenever the introspection passes succeed, the resulting two states equal
the values computed from the introspection oracle alone, for every prior
application state. -/
theorem executeQuery_rebuilds_catalog_state (eng : Engine) (s : AppState)
    (td : List (String × List TableRow)) (sd : List TableSchema)
    (hT : fetchTablesData eng.introspect = .ok td)
    (hS : fetchSchemasData eng.introspect = .ok sd) :
    (executeQuery eng s).tables = td ∧
    (executeQuery eng s).tableSchemas = sd := by
  constructor
  · show ({ fetchTableSchemas eng.introspect
        (fetchTables eng.introspect (execStmtPhase eng s)) with
        leftWidth := s.leftWidth } : AppState).tables = td
    rw [show ∀ st : AppState, ({ st with leftWidth := s.leftWidth } : AppState).tables
        = st.tables from fun _ => rfl]
    rw [(fetchTableSchemas_preserves _ _).2.2.2]
    simp [fetchTables, hT]
  · show ({ fetchTableSchemas eng.introspect
        (fetchTables eng.introspect (execStmtPhase eng s)) with
        leftWidth := s.leftWidth } : AppState).tableSchemas = sd
    rw [show ∀ st : AppState, ({ st with leftWidth := s.leftWidth } : AppState).tableSchemas
        = st.tableSchemas from fun _ => rfl]
    simp [fetchTableSchemas, hS]

/-- Witness for C2 at the concrete catalog engine. -/
theorem executeQuery_rebuilds_catalog_state_witness :
    (executeQuery catEngine baseState).tables =
      [("t", [[("x", SqlValue.num 7)], [("x", SqlValue.str (decodeBytes [104, 105]))]])] ∧
    (executeQuery catEngine baseState).tableSchemas =
      [{ name := "t"
         columns := [{ name := "x", type := "INTEGER", notNull := false,
                       defaultValue := none, primaryKey := true }]
         foreignKeys := [] }] :=
  executeQuery_rebuilds_catalog_state catEngine baseState _ _ (by decide) (by decide)

/-! Claim C3. -/

theorem convertSqlValue_isPrimitive (v : SqlValue) :
    (convertSqlValue v).isPrimitive = true := by
  cases v <;> rfl

theorem mem_recordSet {α : Type} (P : String × α → Prop)
    (d : List (String × α)) (k : String) (v : α) :
    (∀ p ∈ d, P p) → P (k, v) → ∀ p ∈ recordSet d k v, P p := by
  induction d with
  | nil =>
    intro _ hkv p hp
    simp only [recordSet, List.mem_singleton] at hp
    subst hp; exact hkv
  | cons a rest ih =>
    intro hd hkv p hp
    obtain ⟨k', v'⟩ := a
    by_cases h : k' = k
    · simp only [recordSet, if_pos h, List.mem_cons] at hp
      rcases hp with hp | hp
      · subst hp; exact hkv
      · exact hd p (List.mem_cons_of_mem _ hp)
    · simp only [recordSet, if_neg h, List.mem_cons] at hp
      rcases hp with hp | hp
      · subst hp; exact hd _ (List.mem_cons_self _ _)
      · exact ih (fun q hq => hd q (List.mem_cons_of_mem _ hq)) hkv p hp

theorem mem_recordSet_foldl {α : Type} (P : String × α → Prop)
    (entries : List (String × α)) :
    ∀ (acc : List (String × α)), (∀ p ∈ acc, P p) → (∀ e ∈ entries, P e) →
      ∀ p ∈ entries.foldl (fun a kv => recordSet a kv.1 kv.2) acc, P p := by
  induction entries with
  | nil => intro acc hacc _ p hp; exact hacc p hp
  | cons e rest ih =>
    intro acc hacc hent p hp
    simp only [List.foldl_cons] at hp
    exact ih (recordSet acc e.1 e.2)
      (mem_recordSet P acc e.1 e.2 hacc (hent e (List.mem_cons_self _ _)))
      (fun q hq => hent q (List.mem_cons_of_mem _ hq)) p hp

theorem mem_recordOfEntries {α : Type} (P : String × α → Prop)
    (entries : List (String × α)) (hent : ∀ e ∈ entries, P e) :
    ∀ p ∈ recordOfEntries entries, P p :=
  mem_recordSet_foldl P entries [] (fun p hp => absurd hp (List.not_mem_nil p)) hent

theorem rowRecord_primitive (cols : List String) (row : List SqlValue) :
    ∀ cell ∈ rowRecord cols row, cell.2.isPrimitive = true := by
  unfold rowRecord
  refine mem_recordOfEntries
    (fun cell : String × SqlValue => cell.2.isPrimitive = true) _ ?_
  intro e he
  obtain ⟨ic, _, rfl⟩ := List.mem_map.mp he
  exact convertSqlValue_isPrimitive _

theorem fetchTablesLoop_primitive (i : String → Except String (List ExecResult)) :
    ∀ (ts : List String) (acc : List (String × List TableRow))
      (td : List (String × List TableRow)),
      (∀ kv ∈ acc, rowsPrimitive kv) → fetchTablesLoop i ts acc = .ok td →
      ∀ kv ∈ td, rowsPrimitive kv := by
  intro ts
  induction ts with
  | nil =>
    intro acc td hacc h
    simp only [fetchTablesLoop, Except.ok.injEq] at h
    subst h; exact hacc
  | cons t ts ih =>
    intro acc td hacc h
    simp only [fetchTablesLoop] at h
    cases hq : i (selectAllQuery t) with
    | error e => rw [hq] at h; exact absurd h (by simp)
    | ok result =>
      rw [hq] at h
      cases result with
      | nil =>
        refine ih _ td (mem_recordSet _ acc t [] hacc ?_) h
        intro row hrow
        exact absurd hrow (List.not_mem_nil row)
      | cons r rest =>
        refine ih _ td (mem_recordSet _ acc t _ hacc ?_) h
        intro row hrow
        obtain ⟨vals, _, rfl⟩ := List.mem_map.mp hrow
        exact rowRecord_primitive r.columns vals

theorem buildQueryResults_primitive (rs : List ExecResult) :
    ∀ kv ∈ buildQueryResults rs, rowsPrimitive kv := by
  have h : buildQueryResults rs =
      (rs.map (fun r => (String.intercalate ", " r.columns,
        r.values.map (rowRecord r.columns)))).foldl
        (fun a kv => recordSet a kv.1 kv.2) [] := by
    unfold buildQueryResults
    rw [List.foldl_map]
  rw [h]
  apply mem_recordSet_foldl rowsPrimitive _ []
  · intro p hp; exact absurd hp (List.not_mem_nil p)
  · intro e he
    obtain ⟨r, _, rfl⟩ := List.mem_map.mp he
    intro row hrow
    obtain ⟨vals, _, rfl⟩ := List.mem_map.mp hrow
    exact rowRecord_primitive r.columns vals

/-- C3: every cell of every row placed into the `tables` state by
`fetchTables` and into the `queryResults` state by `executeQuery` is a
primitive value (text, number, or NULL); binary engine values are decoded to
text by `convertSqlValue` (and by the identical inline conversion on the
query path) before being stored. -/
theorem fetch_cells_primitive :
    (∀ (i : String → Except String (List ExecResult))
       (td : List (String × List TableRow)),
      fetchTablesData i = .ok td →
      ∀ kv ∈ td, ∀ row ∈ kv.2, ∀ cell ∈ row, cell.2.isPrimitive = true) ∧
    (∀ rs : List ExecResult,
      ∀ kv ∈ buildQueryResults rs, ∀ row ∈ kv.2, ∀ cell ∈ row,
        cell.2.isPrimitive = true) ∧
    (∀ (eng : Engine) (s : AppState) (r : ExecResult) (rs : List ExecResult),
      isDMLQuery s.editorContent = false →
      eng.stmtExec s.editorContent = .ok (r :: rs) →
      (executeQuery eng s).queryResults = some (buildQueryResults (r :: rs))) := by
  refine ⟨?_, ?_, ?_⟩
  · intro i td h
    unfold fetchTablesData at h
    cases hc : i catalogQuery with
    | error e => rw [hc] at h; exact absurd h (by simp)
    | ok tq =>
      rw [hc] at h
      exact fetchTablesLoop_primitive i (tableNamesOf tq) [] td
        (fun kv hkv => absurd hkv (List.not_mem_nil kv)) h
  · exact buildQueryResults_primitive
  · intro eng s r rs hdml hexec
    rw [executeQuery_queryResults]
    simp [execStmtPhase, hdml, hexec]

/-- Witness for C3 at the concrete catalog oracle: the decoded binary cell
stored for table `t` is primitive. -/
theorem fetch_cells_primitive_witness :
    ("x", SqlValue.str (decodeBytes [104, 105])).2.isPrimitive = true :=
  fetch_cells_primitive.1 catIntro
    [("t", [[("x", SqlValue.num 7)], [("x", SqlValue.str (decodeBytes [104, 105]))]])]
    (by decide)
    ("t", [[("x", SqlValue.num 7)], [("x", SqlValue.str (decodeBytes [104, 105]))]])
    (by decide)
    [("x", SqlValue.str (decodeBytes [104, 105]))] (by decide)
    ("x", SqlValue.str (decodeBytes [104, 105])) (by decide)

/-! Claim C4. -/

theorem fetchSchemasLoop_eq_filterMap (i : String → Except String (List ExecResult)) :
    ∀ ts : List String, fetchSchemasLoop i ts = ts.filterMap (schemaFor i) := by
  intro ts
  induction ts with
  | nil => rfl
  | cons t ts ih =>
    simp only [fetchSchemasLoop, List.filterMap_cons]
    cases schemaFor i t <;> simp [ih]

/-- Counterexample for C4: the foreign-key descriptors produced by
`fetchTableSchemas` do not consist of exactly the three claimed fields — the
descriptors of tables `a` and `b` agree on source column, referenced table
and referenced column, yet differ, because each also carries a synthesised
`id` field (`<table>_fk_<index>`). -/
theorem foreignKey_descriptor_extra_id_field :
    ((schemaFor twinTablesIntro "a").map TableSchema.foreignKeys =
      some [{ id := "a_fk_0", columnName := "c", referencedTable := "u",
              referencedColumn := "d" }]) ∧
    ((schemaFor twinTablesIntro "b").map TableSchema.foreignKeys =
      some [{ id := "b_fk_0", columnName := "c", referencedTable := "u",
              referencedColumn := "d" }]) ∧
    ({ id := "a_fk_0", columnName := "c", referencedTable := "u",
       referencedColumn := "d" : ForeignKeyInfo } ≠
     { id := "b_fk_0", columnName := "c", referencedTable := "u",
       referencedColumn := "d" : ForeignKeyInfo }) := by
  refine ⟨by decide, by decide, by decide⟩

/-- C4 (amended): for every table reported by the catalog whose
`PRAGMA table_info` succeeds with a non-empty result and whose
`PRAGMA foreign_key_list` succeeds, `fetchTableSchemas` produces a schema
record of the table name, the column descriptors in `table_info` order with
the fields name, declared type, not-null flag, default value and primary-key
flag, and the foreign-key descriptors with the fields synthesised id
(`<table>_fk_<index>`), source column, referenced table and referenced
column; the schema list is the in-order collection of these records. -/
theorem fetchTableSchemas_produces_descriptors
    (i : String → Except String (List ExecResult)) (t : String)
    (ci : ExecResult) (rest fkr : List ExecResult)
    (hti : i (tableInfoQuery t) = .ok (ci :: rest))
    (hfk : i (foreignKeyListQuery t) = .ok fkr) :
    schemaFor i t = some
      { name := t
        columns := ci.values.map (fun col =>
          { name := (col.getD 1 SqlValue.null).jsToString
            type := (col.getD 2 SqlValue.null).jsToString
            notNull := (col.getD 3 SqlValue.null).jsTruthy
            defaultValue := castStringOrNull (col.getD 4 SqlValue.null)
            primaryKey := (col.getD 5 SqlValue.null).jsTruthy })
        foreignKeys := (fkValuesOf fkr).enum.map (fun ifk =>
          { id := t ++ "_fk_" ++ toString ifk.1
            columnName := (ifk.2.getD 3 SqlValue.null).jsToString
            referencedTable := (ifk.2.getD 2 SqlValue.null).jsToString
            referencedColumn := (ifk.2.getD 4 SqlValue.null).jsToString }) } ∧
    (∀ tq, i catalogQuery = .ok tq →
      fetchSchemasData i = .ok ((tableNamesOf tq).filterMap (schemaFor i))) := by
  constructor
  · simp [schemaFor, hti, hfk]
  · intro tq hc
    simp [fetchSchemasData, hc, fetchSchemasLoop_eq_filterMap]

/-- Witness for the amended C4 at the twin-table oracle. -/
theorem fetchTableSchemas_produces_descriptors_witness :
    schemaFor twinTablesIntro "a" = some
      { name := "a"
        columns := [{ name := "c", type := "INTEGER", notNull := false,
                      defaultValue := none, primaryKey := false }]
        foreignKeys := [{ id := "a_fk_0", columnName := "c",
                          referencedTable := "u", referencedColumn := "d" }] } ∧
    fetchSchemasData twinTablesIntro =
      .ok ((tableNamesOf [⟨["name"], [[.str "a"], [.str "b"]]⟩]).filterMap
        (schemaFor twinTablesIntro)) := by
  have h := fetchTableSchemas_produces_descriptors twinTablesIntro "a"
    ⟨["cid", "name", "type", "notnull", "dflt_value", "pk"],
     [[.num 0, .str "c", .str "INTEGER", .num 0, .null, .num 0]]⟩ []
    [⟨["id", "seq", "table", "from", "to", "on_update", "on_delete", "match"],
      [[.num 0, .num 0, .str "u", .str "c", .str "d",
        .str "NO ACTION", .str "NO ACTION", .str "NONE"]]⟩]
    (by decide) (by decide)
  exact ⟨h.1.trans (by decide), h.2 _ (by decide)⟩

/-! Claim C5. -/

/-- Counterexample for C5: `"UPDATE"` begins with the claimed prefix
`UPDATE` yet is not classified as DML (the regex demands trailing
whitespace), and `INSERT` followed by two newlines and `INTO` is classified
as DML although it does not begin with the literal prefix `INSERT INTO`. -/
theorem isDMLQuery_literal_prefix_counterexample :
    isDMLClaimed "UPDATE" = true ∧ isDMLQuery "UPDATE" = false ∧
    isDMLClaimed "INSERT\n\nINTO t VALUES (1)" = false ∧
    isDMLQuery "INSERT\n\nINTO t VALUES (1)" = true := by
  refine ⟨by decide, by decide, by decide, by decide⟩

theorem flexMatch_keyword (ks : List Char) (hks : ∀ c ∈ ks, c ≠ ' ') :
    ∀ (cs tail : List Char), flexMatch cs (ks ++ tail) =
      (match matchKeywordCI cs ks with
       | some rest => flexMatch rest tail
       | none => false) := by
  induction ks with
  | nil => intro cs tail; simp [matchKeywordCI]
  | cons k ks ih =>
    intro cs tail
    have hk : k ≠ ' ' := hks k (List.mem_cons_self _ _)
    have hks' : ∀ c ∈ ks, c ≠ ' ' := fun c hc => hks c (List.mem_cons_of_mem _ hc)
    cases cs with
    | nil => simp [flexMatch, matchKeywordCI, hk]
    | cons c cs' =>
      simp only [List.cons_append, flexMatch, if_neg hk, matchKeywordCI]
      by_cases h : c.toUpper = k
      · simp only [h, decide_True, if_pos rfl, Bool.true_and, eq_self_iff_true]
        exact ih hks' cs' tail
      · simp [h]

theorem flexMatch_keyword_only (ks : List Char) (hks : ∀ c ∈ ks, c ≠ ' ')
    (cs : List Char) :
    flexMatch cs ks = (matchKeywordCI cs ks).isSome := by
  have h := flexMatch_keyword ks hks cs []
  rw [List.append_nil] at h
  rw [h]
  cases matchKeywordCI cs ks <;> simp [flexMatch]

theorem testTwoKeyword_eq_flexMatch (q k1 k2 : String)
    (h1 : ∀ c ∈ k1.toList, c ≠ ' ') (h2 : ∀ c ∈ k2.toList, c ≠ ' ') :
    testTwoKeyword q k1 k2 =
      flexMatch (q.toList.dropWhile jsWhitespace) (k1.toList ++ ' ' :: k2.toList) := by
  rw [flexMatch_keyword k1.toList h1]
  unfold testTwoKeyword
  cases hm : matchKeywordCI (q.toList.dropWhile jsWhitespace) k1.toList with
  | none => rfl
  | some rest =>
    cases rest with
    | nil => simp [flexMatch]
    | cons c cs =>
      show (jsWhitespace c && (matchKeywordCI (cs.dropWhile jsWhitespace) k2.toList).isSome) =
        (jsWhitespace c && flexMatch (cs.dropWhile jsWhitespace) k2.toList)
      rw [flexMatch_keyword_only k2.toList h2]

theorem testKeywordWs_eq_flexMatch (q k : String)
    (h : ∀ c ∈ k.toList, c ≠ ' ') :
    testKeywordWs q k =
      flexMatch (q.toList.dropWhile jsWhitespace) (k.toList ++ [' ']) := by
  rw [flexMatch_keyword k.toList h]
  unfold testKeywordWs
  cases hm : matchKeywordCI (q.toList.dropWhile jsWhitespace) k.toList with
  | none => rfl
  | some rest =>
    cases rest with
    | nil => simp [flexMatch]
    | cons c cs => simp [flexMatch]

/-- C5 (amended): `isDMLQuery` accepts exactly the texts that, after
optional leading whitespace, match one of the six claimed prefixes read with
each listed space standing for one-or-more whitespace characters and with
`UPDATE` required to be followed by whitespace; `executeQuery` routes DML
statements through `db.run` (ignoring `db.exec`, reporting a rows-affected
message and an empty result set) and all other statements through `db.exec`
(ignoring `db.run`). -/
theorem isDMLQuery_flex_characterisation :
    (∀ q : String, isDMLQuery q = isDMLFlex q) ∧
    (∀ (e₁ e₂ : Engine) (s : AppState), e₁.stmtRun = e₂.stmtRun →
      e₁.introspect = e₂.introspect → isDMLQuery s.editorContent = true →
      executeQuery e₁ s = executeQuery e₂ s) ∧
    (∀ (e₁ e₂ : Engine) (s : AppState), e₁.stmtExec = e₂.stmtExec →
      e₁.introspect = e₂.introspect → isDMLQuery s.editorContent = false →
      executeQuery e₁ s = executeQuery e₂ s) ∧
    (∀ (eng : Engine) (s : AppState) (n : Nat),
      isDMLQuery s.editorContent = true →
      eng.stmtRun s.editorContent = .ok n →
      (executeQuery eng s).queryResults = some [] ∧
      (executeQuery eng s).queryMessage =
        some ("Query executed successfully. Rows affected: " ++ toString n)) := by
  refine ⟨?_, ?_, ?_, ?_⟩
  · intro q
    unfold isDMLQuery isDMLFlex
    simp only [List.any_cons, List.any_nil, Bool.or_false]
    rw [testTwoKeyword_eq_flexMatch q "INSERT" "INTO" (by decide) (by decide),
        testKeywordWs_eq_flexMatch q "UPDATE" (by decide),
        testTwoKeyword_eq_flexMatch q "DELETE" "FROM" (by decide) (by decide),
        testTwoKeyword_eq_flexMatch q "CREATE" "TABLE" (by decide) (by decide),
        testTwoKeyword_eq_flexMatch q "DROP" "TABLE" (by decide) (by decide),
        testTwoKeyword_eq_flexMatch q "ALTER" "TABLE" (by decide) (by decide)]
    rw [show ("INSERT".toList ++ ' ' :: "INTO".toList) = "INSERT INTO".toList from by decide,
        show ("UPDATE".toList ++ [' ']) = "UPDATE ".toList from by decide,
        show ("DELETE".toList ++ ' ' :: "FROM".toList) = "DELETE FROM".toList from by decide,
        show ("CREATE".toList ++ ' ' :: "TABLE".toList) = "CREATE TABLE".toList from by decide,
        show ("DROP".toList ++ ' ' :: "TABLE".toList) = "DROP TABLE".toList from by decide,
        show ("ALTER".toList ++ ' ' :: "TABLE".toList) = "ALTER TABLE".toList from by decide]
    simp [Bool.or_assoc]
  · intro e₁ e₂ s hR hI hDML
    simp [executeQuery, execStmtPhase, fetchTables, fetchTableSchemas,
      hDML, hR, hI]
  · intro e₁ e₂ s hE hI hDML
    simp [executeQuery, execStmtPhase, fetchTables, fetchTableSchemas,
      hDML, hE, hI]
  · intro eng s n hDML hRun
    constructor
    · rw [executeQuery_queryResults]
      simp [execStmtPhase, hDML, hRun]
    · rw [executeQuery_queryMessage]
      simp [execStmtPhase, hDML, hRun]

/-- Witness for the amended C5 at concrete inputs. -/
theorem isDMLQuery_flex_characterisation_witness :
    isDMLQuery "UPDATE t SET x = 1" = isDMLFlex "UPDATE t SET x = 1" ∧
    (executeQuery dmlEngine dmlState).queryResults = some [] ∧
    (executeQuery dmlEngine dmlState).queryMessage =
      some ("Query executed successfully. Rows affected: " ++ toString 3) :=
  ⟨isDMLQuery_flex_characterisation.1 _,
   (isDMLQuery_flex_characterisation.2.2.2 dmlEngine dmlState 3 (by decide) rfl).1,
   (isDMLQuery_flex_characterisation.2.2.2 dmlEngine dmlState 3 (by decide) rfl).2⟩

/-! Claim C6. -/

/-- C6: `executeQuery` passes the editor's SQL text to the engine unchanged
— the engine's responses at exactly `editorContent` determine the whole
outcome — converts result rows to column-name-to-value records
(`buildQueryResults` via `rowRecord`), and the root view republishes the
derived state as props: `tables` to the available-tables component,
`tableSchemas` to the schema graph, and `queryResults` to the results-table
component whenever no error or message box replaces it. -/
theorem executeQuery_forwards_and_republishes :
    (∀ (e₁ e₂ : Engine) (s : AppState),
      e₁.stmtRun s.editorContent = e₂.stmtRun s.editorContent →
      e₁.stmtExec s.editorContent = e₂.stmtExec s.editorContent →
      e₁.introspect = e₂.introspect →
      executeQuery e₁ s = executeQuery e₂ s) ∧
    (∀ (eng : Engine) (s : AppState) (r : ExecResult) (rs : List ExecResult),
      isDMLQuery s.editorContent = false →
      eng.stmtExec s.editorContent = .ok (r :: rs) →
      (executeQuery eng s).queryResults = some (buildQueryResults (r :: rs))) ∧
    (∀ s : AppState, (render s).availableTablesProp = s.tables ∧
      (render s).schemaGraphProp = s.tableSchemas) ∧
    (∀ s : AppState, s.queryError = none → s.queryMessage = none →
      (render s).resultsPane = .resultsTable s.queryResults) := by
  refine ⟨?_, ?_, ?_, ?_⟩
  · intro e₁ e₂ s hR hE hI
    simp [executeQuery, execStmtPhase, fetchTables, fetchTableSchemas,
      hR, hE, hI]
  · intro eng s r rs hdml hexec
    rw [executeQuery_queryResults]
    simp [execStmtPhase, hdml, hexec]
  · intro s; exact ⟨rfl, rfl⟩
  · intro s he hm
    simp [render, he, hm]

/-- Witness for C6: two engines that agree at the editor text produce the
same outcome, results are the converted records, and the rendered props are
the state fields. -/
theorem executeQuery_forwards_and_republishes_witness :
    executeQuery catEngine baseState =
      executeQuery { catEngine with exportBytes := [9] } baseState ∧
    (executeQuery multiEngine baseState).queryResults =
      some (buildQueryResults [⟨["a"], [[.num 1]]⟩]) ∧
    (render baseState).availableTablesProp = baseState.tables ∧
    (render baseState).resultsPane = .resultsTable baseState.queryResults :=
  ⟨executeQuery_forwards_and_republishes.1 _ _ _ rfl rfl rfl,
   executeQuery_forwards_and_republishes.2.1 multiEngine baseState
     ⟨["a"], [[.num 1]]⟩ [] (by decide) rfl,
   (executeQuery_forwards_and_republishes.2.2.1 baseState).1,
   executeQuery_forwards_and_republishes.2.2.2 baseState rfl rfl⟩

/-! Claim C7. -/

/-- C7: with a database loaded, `downloadDatabase` downloads a blob whose
bytes are exactly `db.export()`, named after the loaded file or the default
name; with no database it only shows the alert.  Application state is
untouched on both paths. -/
theorem downloadDatabase_export_or_alert (db : Option Engine) (s : AppState) :
    (downloadDatabase db s).2 = s ∧
    (db = none → (downloadDatabase db s).1 = .alertNoDb) ∧
    (∀ d, db = some d → (downloadDatabase db s).1 =
      .downloaded d.exportBytes (s.file.getD defaultExportName)) := by
  refine ⟨?_, ?_, ?_⟩
  · cases db <;> rfl
  · intro h; subst h; rfl
  · intro d h; subst h
    cases hf : s.file <;> simp [downloadDatabase, hf]

/-- Witness for C7 at concrete inputs. -/
theorem downloadDatabase_export_or_alert_witness :
    (downloadDatabase (some exportEngine) fileState).2 = fileState ∧
    (downloadDatabase none fileState).1 = .alertNoDb ∧
    (downloadDatabase (some exportEngine) fileState).1 =
      .downloaded exportEngine.exportBytes (fileState.file.getD defaultExportName) :=
  ⟨(downloadDatabase_export_or_alert (some exportEngine) fileState).1,
   (downloadDatabase_export_or_alert none fileState).2.1 rfl,
   (downloadDatabase_export_or_alert (some exportEngine) fileState).2.2
     exportEngine rfl⟩

/-! Claim C8. -/

/-- C8: the navigation bar emits exactly the three event kinds of its
callback props: a file-selection event carrying the first chosen file when
the input changes with a non-empty file list, a download event on the
download button, and a clear event only when the user confirms; declining
the confirmation emits nothing and changes nothing. -/
theorem navbar_emits_three_event_kinds :
    (∀ (f : String) (rest : List String) (nav : NavbarState),
      (handleFileUpload (f :: rest) nav).1 = [NavEvent.fileSelect f]) ∧
    (∀ nav : NavbarState,
      (handleFileUpload [] nav).1 = [] ∧ (handleFileUpload [] nav).2 = nav) ∧
    (∀ nav : NavbarState, (handleDownloadClick nav).1 = [NavEvent.downloadDb]) ∧
    (∀ nav : NavbarState, (handleClearDb true nav).1 = [NavEvent.clearDb]) ∧
    (∀ nav : NavbarState,
      (handleClearDb false nav).1 = [] ∧ (handleClearDb false nav).2 = nav) := by
  exact ⟨fun _ _ _ => rfl, fun _ => ⟨rfl, rfl⟩, fun _ => rfl,
    fun _ => rfl, fun _ => ⟨rfl, rfl⟩⟩

/-! Claim C9. -/

/-- C9: `executeQuery` keys result sets by the comma-joined column names, so
when the engine returns two result sets with the same column list only the
last survives: `queryResults` holds one entry — strictly fewer than the two
result sets returned — and that entry holds the last result set's rows,
which is what the results pane displays. -/
theorem duplicate_column_keys_retain_last :
    (executeQuery twinResultEngine twinResultState).queryResults =
      some [("a", [[("a", SqlValue.num 2)]])] ∧
    ((executeQuery twinResultEngine twinResultState).queryResults.getD []).length = 1 ∧
    twinResultSets.length = 2 ∧
    ((executeQuery twinResultEngine twinResultState).queryResults.getD []).length <
      twinResultSets.length ∧
    (render (executeQuery twinResultEngine twinResultState)).resultsPane =
      .resultsTable (some [("a", [[("a", SqlValue.num 2)]])]) := by
  refine ⟨by decide, by decide, by decide, by decide, by decide⟩

/-! Claim C10. -/

theorem clampFraction_inRange (x : ℚ) : fractionInRange (clampFraction x) := by
  constructor
  · exact le_max_left _ _
  · exact max_le (by norm_num [minFraction, maxFraction]) (min_le_left _ _)

theorem dragValues_inRange (start : ℚ) (ds : List ℚ) :
    ∀ x ∈ dragValues start ds, fractionInRange x := by
  intro x hx
  obtain ⟨d, _, rfl⟩ := List.mem_map.mp hx
  exact clampFraction_inRange _

theorem getLastD_dragValues_inRange (start old : ℚ) (ds : List ℚ)
    (hold : fractionInRange old) :
    fractionInRange ((dragValues start ds).getLastD old) := by
  cases h : (dragValues start ds).getLast? with
  | none => rw [List.getLastD_eq_getLast?, h]; exact hold
  | some a =>
    rw [List.getLastD_eq_getLast?, h]
    have ha : a ∈ (dragValues start ds).getLast? := by
      rw [Option.mem_def, h]
    obtain ⟨hne, hx⟩ := List.mem_getLast?_eq_getLast ha
    rw [show (Option.getD (some a) old) = a from rfl, hx]
    exact dragValues_inRange start ds _ (List.getLast_mem hne)

theorem applyEvent_preserves_range (st : LayoutState) (e : ResizeEvent)
    (h : layoutInRange st) : layoutInRange (applyEvent st e) := by
  obtain ⟨h1, h2, h3⟩ := h
  cases e with
  | horizontalDrag ds =>
    exact ⟨getLastD_dragValues_inRange _ _ ds h1, h2, h3⟩
  | verticalDragLeft ds =>
    exact ⟨h1, getLastD_dragValues_inRange _ _ ds h2, h3⟩
  | verticalDragRight ds =>
    exact ⟨h1, h2, getLastD_dragValues_inRange _ _ ds h3⟩
  | runQueryRelayout => exact ⟨h1, h2, h3⟩

theorem layoutTrace_inRange :
    ∀ (evs : List ResizeEvent) (st : LayoutState), layoutInRange st →
      ∀ s' ∈ layoutTrace st evs, layoutInRange s' := by
  intro evs
  induction evs with
  | nil =>
    intro st hst s' hs'
    simp only [layoutTrace, List.mem_singleton] at hs'
    subst hs'; exact hst
  | cons e es ih =>
    intro st hst s' hs'
    simp only [layoutTrace, List.mem_cons] at hs'
    rcases hs' with hs' | hs'
    · subst hs'; exact hst
    · exact ih (applyEvent st e) (applyEvent_preserves_range st e hst) s' hs'

/-- C10: every mouse move of a resize drag clamps the new fraction to
`[0.2, 0.8]`; since the initial fractions (0.3, 0.5, 0.5) lie in this
interval, all three layout fractions stay within `[0.2, 0.8]` through every
sequence of drags and moves. -/
theorem layout_fractions_clamped :
    (∀ start d : ℚ, fractionInRange (clampFraction (start + d))) ∧
    (∀ (start : ℚ) (ds : List ℚ), ∀ x ∈ dragValues start ds, fractionInRange x) ∧
    (∀ evs : List ResizeEvent, ∀ st ∈ layoutTrace initialLayout evs,
      layoutInRange st) := by
  refine ⟨fun start d => clampFraction_inRange _, dragValues_inRange, ?_⟩
  intro evs st hst
  refine layoutTrace_inRange evs initialLayout ?_ st hst
  refine ⟨⟨?_, ?_⟩, ⟨?_, ?_⟩, ⟨?_, ?_⟩⟩ <;>
    norm_num [initialLayout, minFraction, maxFraction]

/-- Witness for C10: a drag that overshoots far to the right still leaves
the left pane fraction inside the interval. -/
theorem layout_fractions_clamped_witness :
    fractionInRange (clampFraction ((0.3 : ℚ) + 2)) ∧
    layoutInRange (applyEvent initialLayout (.horizontalDrag [2])) :=
  ⟨layout_fractions_clamped.1 0.3 2,
   layout_fractions_clamped.2.2 [ResizeEvent.horizontalDrag [2]]
     (applyEvent initialLayout (.horizontalDrag [2]))
     (by simp [layoutTrace])⟩

end Playground
